import Mathlib

/-!
Verification development for the shear access-control system.

The definitions below are shallow embeddings of the Python sources:
  - namespace CardReader : src/card_reader.py (class CardReader)
  - namespace LabJack    : src/labjack_u3.py (class LabJackU3) and the
    /api/labjack/control route of src/app.py
  - namespace Shear      : the shear lock controller globals and handlers
    of src/app.py
  - namespace Settings   : the /api/settings POST route of src/app.py
  - namespace AccessCtl  : handle_card_read of src/app.py together with
    the user / pending-request / scan-event tables of src/database.py

Time is modelled in integer milliseconds (the Python sources use
time.time() seconds with the constants 0.5 s and 2.0 s, here 500 and
2000).  Card identifiers are modelled by the numeric value whose decimal
rendering the Python code stores as the identifier string: the code
computes card_id as str(raw_int), and since decimal rendering of natural
numbers is injective, string comparisons on identifiers coincide with
comparisons of the numeric values, and the test
"not card_id or card_id == zero-string" holds exactly when raw_int = 0.
-/

namespace CardReader

/-- self.card_timeout = 0.5 seconds, in milliseconds. -/
def cardTimeout : Nat := 500

/-- self.duplicate_timeout = 2.0 seconds, in milliseconds. -/
def duplicateTimeout : Nat := 2000

/-- The mutable state of a CardReader instance that frame assembly uses:
card_buffer, last_read_time, and last_processed_card (card id value and
timestamp). Initial values: [], 0, None. -/
structure RState where
  cardBuffer : List Nat
  lastReadTime : Nat
  lastProcessed : Option (Nat × Nat)
deriving DecidableEq, Repr

/-- Initial reader state, from CardReader.__init__. -/
def initialState : RState := ⟨[], 0, none⟩

/-- The non-zero bytes of a raw report: new_bytes = [b for b in raw_data if b != 0]. -/
def nzBytes (raw : List Nat) : List Nat := raw.filter (fun b => b != 0)

/-- The accumulated numeric value of a buffer, from process_card_buffer:
raw_int starts at 0 and each byte does raw_int = (raw_int << 8) | byte. -/
def bufVal (bs : List Nat) : Nat := bs.foldl (fun acc b => (acc <<< 8) ||| b) 0

/-- The big-endian base-256 value of a byte list as the specification
words it ("the big-endian numeric value of the accumulated bytes").
Coincides with bufVal whenever every byte is below 256. -/
def specVal (bs : List Nat) : Nat := bs.foldl (fun acc b => 256 * acc + b) 0

/-- process_card_buffer at time t: computes the numeric card id of the
buffer, rejects an empty buffer and the zero value, suppresses a
duplicate of the last processed card within duplicate_timeout, and
otherwise records the card as last processed and returns it. The
returned state reflects the mutation of self.last_processed_card; the
buffer itself is not touched here (parse_card_data clears it on
success). -/
def processCardBuffer (s : RState) (t : Nat) : RState × Option Nat :=
  if s.cardBuffer = [] then (s, none)
  else
    let rawInt := bufVal s.cardBuffer
    if rawInt = 0 then (s, none)
    else
      match s.lastProcessed with
      | some (pid, pt) =>
        if pid = rawInt ∧ t - pt < duplicateTimeout then (s, none)
        else ({ s with lastProcessed := some (rawInt, t) }, some rawInt)
      | none => ({ s with lastProcessed := some (rawInt, t) }, some rawInt)

/-- The buffer parse_card_data works on after a report with non-zero
bytes arrives at time t: if the gap since last_read_time exceeds
card_timeout and the buffer is non-empty, the pending buffer is cleared
(started fresh, not processed), and then the new non-zero bytes are
appended. -/
def assembleBuf (s : RState) (t : Nat) (raw : List Nat) : List Nat :=
  (if cardTimeout < t - s.lastReadTime ∧ s.cardBuffer ≠ [] then [] else s.cardBuffer)
    ++ nzBytes raw

/-- parse_card_data at time t on one raw report (the submit operation of
the Frame Assembler): reports with no non-zero bytes are ignored;
otherwise the buffer is assembled as in assembleBuf and last_read_time
updated; once at least 4 bytes are accumulated the buffer is processed,
and on a successful result the buffer is cleared and the card id
returned. -/
def parseCardData (s : RState) (t : Nat) (raw : List Nat) : RState × Option Nat :=
  let nb := nzBytes raw
  if nb = [] then (s, none)
  else
    let buf := assembleBuf s t raw
    let s1 : RState := { s with cardBuffer := buf, lastReadTime := t }
    if 4 ≤ buf.length then
      let pr := processCardBuffer s1 t
      match pr.2 with
      | some r => ({ pr.1 with cardBuffer := [] }, some r)
      | none => (pr.1, none)
    else (s1, none)

/-- Feed a timestamped sequence of raw reports through parse_card_data
one at a time, collecting the emitted card ids in order. -/
def runReports : RState → List (Nat × List Nat) → RState × List Nat
  | s, [] => (s, [])
  | s, r :: rest =>
    let pr := parseCardData s r.1 r.2
    let rr := runReports pr.1 rest
    (rr.1, pr.2.toList ++ rr.2)

/-- All non-zero bytes contributed by a list of timestamped reports. -/
def groupBytes (g : List (Nat × List Nat)) : List Nat :=
  (g.map (fun p => nzBytes p.2)).flatten

/-- Arrival time of the first report of a group. -/
def firstTime (g : List (Nat × List Nat)) : Nat := (g.head?.map (fun p => p.1)).getD 0

/-- Arrival time of the last report of a group. -/
def lastTime (g : List (Nat × List Nat)) : Nat := (g.getLast?.map (fun p => p.1)).getD 0

/-- A well-formed scan group: non-empty, every report carries a non-zero
byte, bytes are octets, report times are non-decreasing with
inter-report gaps of at most card_timeout, the 4-byte threshold is first
reached at the last report, and at least 4 non-zero bytes arrive in
total. -/
def GroupOK (g : List (Nat × List Nat)) : Prop :=
  g ≠ [] ∧
  (∀ p ∈ g, nzBytes p.2 ≠ []) ∧
  (∀ p ∈ g, ∀ b ∈ p.2, b < 256) ∧
  List.Chain' (fun p q => p.1 ≤ q.1 ∧ q.1 - p.1 ≤ cardTimeout) g ∧
  (∀ k, k + 1 < g.length → (groupBytes (g.take (k + 1))).length < 4) ∧
  4 ≤ (groupBytes g).length

/-- A well-formed sequence of scan groups relative to the last processed
card: each group is well formed, is not suppressed as a duplicate of the
previous emission, and consecutive groups are separated by a gap
exceeding card_timeout. -/
def GroupsOK : Option (Nat × Nat) → List (List (Nat × List Nat)) → Prop
  | _, [] => True
  | lp, g :: rest =>
    GroupOK g ∧
    (match lp with
     | none => True
     | some (pid, pt) => pid ≠ specVal (groupBytes g) ∨ duplicateTimeout ≤ lastTime g - pt) ∧
    (match rest with
     | [] => True
     | g2 :: _ => lastTime g + cardTimeout < firstTime g2) ∧
    GroupsOK (some (specVal (groupBytes g), lastTime g)) rest

end CardReader

/-- Update one key of an association list, as Python dict assignment
m[k] = v does: replace an existing binding in place, or append a new
one. -/
def setAssoc {α : Type} : List (String × α) → String → α → List (String × α)
  | [], k, v => [(k, v)]
  | (k', v') :: rest, k, v =>
    if k' = k then (k, v) :: rest else (k', v') :: setAssoc rest k v

/-- Look up a key of an association list with a default, as Python
m.get(k, d) does. -/
def getAssoc {α : Type} (m : List (String × α)) (k : String) (d : α) : α :=
  ((m.find? (fun p => p.1 = k)).map (fun p => p.2)).getD d

namespace LabJack

/-- self.output_channels = [FIO6, FIO7] from LabJackU3.__init__. -/
def outputChannels : List String := ["FIO6", "FIO7"]

/-- self.input_channels = [FIO4, FIO5] from LabJackU3.__init__. -/
def inputChannels : List String := ["FIO4", "FIO5"]

/-- self.floating_inputs_as_low = True from LabJackU3.__init__. -/
def floatingInputsAsLow : Bool := true

/-- Decimal parse of a digit string, as Python int() on the remainder of
the channel name: empty or non-digit input raises (none). -/
def digitsToNat : List Char → Nat → Option Nat
  | [], acc => some acc
  | c :: cs, acc => if c.isDigit then digitsToNat cs (10 * acc + (c.toNat - 48)) else none

/-- int(text) for a channel-name remainder. -/
def parseDigits : List Char → Option Nat
  | [] => none
  | c :: cs => digitsToNat (c :: cs) 0

/-- Channel-name to pin-number translation used throughout
labjack_u3.py: FIOn maps to n, EIOn maps to n + 8, anything else (or an
unparseable digit part, which raises ValueError in Python) yields no
pin. -/
def pinNum (channel : String) : Option Nat :=
  match channel.data with
  | 'F' :: 'I' :: 'O' :: rest => parseDigits rest
  | 'E' :: 'I' :: 'O' :: rest => (parseDigits rest).map (fun n => n + 8)
  | _ => none

/-- The LabJackU3 state the embedded operations touch: the connection
flag, the recorded output_states map, the log of BitStateWrite commands
actually sent to the device (pin number and level), and the
shear_unlocked flag. -/
structure LJ where
  connected : Bool
  outputStates : List (String × Bool)
  deviceWrites : List (Nat × Bool)
  shearUnlocked : Bool
deriving DecidableEq, Repr

/-- set_digital_output: fails when disconnected, when the channel is not
one of the configured output channels, or when the channel name cannot
be translated to a pin; otherwise writes the pin level on the device and
records it in output_states. -/
def setDigitalOutput (lj : LJ) (channel : String) (state : Bool) : LJ × Bool :=
  if ¬ lj.connected then (lj, false)
  else if channel ∉ outputChannels then (lj, false)
  else
    match pinNum channel with
    | none => (lj, false)
    | some pin =>
      ({ lj with
          deviceWrites := lj.deviceWrites ++ [(pin, state)],
          outputStates := setAssoc lj.outputStates channel state }, true)

/-- trigger_shear_unlock: activates the EIO0 relay and, on success,
marks the shear unlocked (the delayed relay-off thread only starts on
success and is omitted here since it never runs). -/
def triggerShearUnlock (lj : LJ) : LJ × Bool :=
  let r := setDigitalOutput lj "EIO0" true
  if r.2 then ({ r.1 with shearUnlocked := true }, true) else (r.1, false)

/-- force_shear_lock: deactivates the EIO0 relay and, on success, marks
the shear locked. -/
def forceShearLock (lj : LJ) : LJ × Bool :=
  let r := setDigitalOutput lj "EIO0" false
  if r.2 then ({ r.1 with shearUnlocked := false }, true) else (r.1, false)

/-- set_status_led: maps green, red, blue to EIO1, EIO2, EIO3 and drives
that channel; an unknown color fails. -/
def setStatusLed (lj : LJ) (color : String) (state : Bool) : LJ × Bool :=
  if color = "green" then setDigitalOutput lj "EIO1" state
  else if color = "red" then setDigitalOutput lj "EIO2" state
  else if color = "blue" then setDigitalOutput lj "EIO3" state
  else (lj, false)

/-- The three rapid samples read_digital_inputs takes of a channel: a
device read either yields the triple or raises (none). -/
def stableReading (floatLow : Bool) (r : Bool × Bool × Bool) : Bool :=
  if r.1 = r.2.1 ∧ r.2.1 = r.2.2 then r.1
  else if floatLow then false else true

/-- The channel loop of read_digital_inputs: channels whose name is
neither FIO nor EIO are skipped, a device read error aborts the whole
loop (the try wraps the entire loop), and otherwise the stable reading
for each channel is collected in order. -/
def readChannelsAux : List String → (String → Option (Bool × Bool × Bool)) →
    Option (List (String × Bool))
  | [], _ => some []
  | c :: cs, dev =>
    match pinNum c with
    | none => readChannelsAux cs dev
    | some _ =>
      match dev c with
      | none => none
      | some r =>
        (readChannelsAux cs dev).map (fun rest => (c, stableReading floatingInputsAsLow r) :: rest)

/-- read_digital_inputs: empty when disconnected; otherwise the collected
stable readings, or empty when a read error aborted the loop (the
exception handler logs and returns an empty dict). -/
def readDigitalInputs (lj : LJ) (dev : String → Option (Bool × Bool × Bool)) :
    List (String × Bool) :=
  if ¬ lj.connected then []
  else
    match readChannelsAux inputChannels dev with
    | some states => states
    | none => []

/-- The digital-input change-detection step of one monitor_loop
iteration: compare each fresh reading with last_input_states (default
False), update the stored state and emit a change event exactly on a
difference. Returns the updated stored states and the change events in
order. -/
def monitorStepDigital (last : List (String × Bool)) (lj : LJ)
    (dev : String → Option (Bool × Bool × Bool)) :
    List (String × Bool) × List (String × Bool) :=
  (readDigitalInputs lj dev).foldl
    (fun acc p =>
      if p.2 ≠ getAssoc acc.1 p.1 false
      then (setAssoc acc.1 p.1 p.2, acc.2 ++ [p])
      else acc)
    (last, [])

/-- The set_digital_output action of the /api/labjack/control route: the
app-level state is the output_modes map, the manual_output_states map
and the LabJack handle. In manual mode the manual state is recorded and
the output driven; in auto mode the output is driven directly (the code
comments that this should not typically be called but allows it for
testing). -/
structure AppCtl where
  outputModes : List (String × String)
  manualOutputStates : List (String × Bool)
  lj : LJ
deriving DecidableEq, Repr

/-- labjack_control, action set_digital_output: rejected when the
LabJack is not connected; otherwise dispatch on the mode of the target
channel (default auto). -/
def apiSetDigitalOutput (a : AppCtl) (channel : String) (state : Bool) : AppCtl × Bool :=
  if ¬ a.lj.connected then (a, false)
  else if getAssoc a.outputModes channel "auto" = "manual" then
    let a1 : AppCtl := { a with manualOutputStates := setAssoc a.manualOutputStates channel state }
    let r := setDigitalOutput a1.lj channel state
    ({ a1 with lj := r.1 }, r.2)
  else
    let r := setDigitalOutput a.lj channel state
    ({ a with lj := r.1 }, r.2)

end LabJack

namespace Shear

/-- The shear lock controller state of app.py: the shear_unlocked flag,
the shear_cycles counter, the shear_unlock_timestamp, whether a
shear_unlock_timer is pending, and the relevant SHEAR_SETTINGS entries
(unlock_timeout in seconds, motion_input_pin). -/
structure ShearCtl where
  shearUnlocked : Bool
  shearCycles : Nat
  unlockTimestamp : Option Nat
  timerRunning : Bool
  unlockTimeout : Nat
  motionInputPin : String
deriving DecidableEq, Repr

/-- start_shear_timeout_timer at time now: cancels any pending timer,
resets shear_unlock_timestamp to now and starts a fresh timer at the
configured unlock_timeout. -/
def startShearTimeoutTimer (s : ShearCtl) (now : Nat) : ShearCtl :=
  { s with unlockTimestamp := some now, timerRunning := true }

/-- handle_labjack_input_change for a digital change event on a channel
with the given level at time now: when the channel is the configured
motion input pin and the shear is unlocked, a high level restarts the
timeout timer and increments the cycle counter, while a low level is
only logged; all other branches only log. -/
def handleInputChange (s : ShearCtl) (channel : String) (state : Bool) (now : Nat) : ShearCtl :=
  if channel = s.motionInputPin ∧ s.shearUnlocked then
    if state then
      let s1 := startShearTimeoutTimer s now
      { s1 with shearCycles := s1.shearCycles + 1 }
    else s
  else s

/-- The timeout_remaining computation of /api/status at time now:
max(0, unlock_timeout - elapsed) when a timer is pending, the shear is
unlocked and a timestamp exists, else 0 (max is implicit in truncated
subtraction). -/
def remainingTime (s : ShearCtl) (now : Nat) : Nat :=
  match s.unlockTimestamp with
  | some t0 => if s.timerRunning ∧ s.shearUnlocked then s.unlockTimeout - (now - t0) else 0
  | none => 0

end Shear

namespace Settings

/-- The SHEAR_SETTINGS dictionary of app.py (timeout as an integer
number of seconds). -/
structure ShearSettings where
  unlockTimeout : Int
  shearOutputPin : String
  motionInputPin : String
  errorAction : String
deriving DecidableEq, Repr

/-- Default SHEAR_SETTINGS from app.py. -/
def defaultSettings : ShearSettings := ⟨120, "FIO6", "FIO4", "unlock"⟩

/-- A settings-update request: each field is present or absent, as the
keys of the posted JSON object are. -/
structure SettingsRequest where
  unlockTimeout : Option Int
  shearOutputPin : Option String
  motionInputPin : Option String
  errorAction : Option String
deriving DecidableEq, Repr

/-- Stage four of api_save_settings: the error_action field, validated
against the three recognized actions. -/
def saveErrorAction (s : ShearSettings) (d : SettingsRequest) : ShearSettings × Option String :=
  match d.errorAction with
  | some a =>
    if a = "unlock" ∨ a = "lock" ∨ a = "maintain"
    then ({ s with errorAction := a }, none)
    else (s, some "Invalid error action")
  | none => (s, none)

/-- Stage three of api_save_settings: the motion_input_pin field,
validated against the two designated input pins. -/
def saveMotionPin (s : ShearSettings) (d : SettingsRequest) : ShearSettings × Option String :=
  match d.motionInputPin with
  | some pin =>
    if pin = "FIO4" ∨ pin = "FIO5"
    then saveErrorAction { s with motionInputPin := pin } d
    else (s, some "Invalid input pin")
  | none => saveErrorAction s d

/-- Stage two of api_save_settings: the shear_output_pin field,
validated against the two designated output pins. -/
def saveOutputPin (s : ShearSettings) (d : SettingsRequest) : ShearSettings × Option String :=
  match d.shearOutputPin with
  | some pin =>
    if pin = "FIO6" ∨ pin = "FIO7"
    then saveMotionPin { s with shearOutputPin := pin } d
    else (s, some "Invalid output pin")
  | none => saveMotionPin s d

/-- api_save_settings: the fields are validated and applied one after
another in the fixed order unlock_timeout, shear_output_pin,
motion_input_pin, error_action; the first invalid field aborts with its
specific 400 message, with every update made so far already applied to
the global settings (the Python code mutates SHEAR_SETTINGS in place
before validating later fields). The result is the settings dictionary
after the call together with the error message, if any. -/
def apiSaveSettings (s : ShearSettings) (d : SettingsRequest) : ShearSettings × Option String :=
  match d.unlockTimeout with
  | some v =>
    if 10 ≤ v ∧ v ≤ 3600
    then saveOutputPin { s with unlockTimeout := v } d
    else (s, some "Timeout must be between 10 and 3600 seconds")
  | none => saveOutputPin s d

end Settings

namespace AccessCtl

/-- A row of the users table (the columns the access decision reads;
last_access is written but never read by the decision and is omitted). -/
structure UserRec where
  cardId : String
  name : String
  status : String
deriving DecidableEq, Repr

/-- A row of the pending_requests table (the columns the decision
reads). -/
structure PendingRec where
  cardId : String
  firstName : String
  lastName : String
deriving DecidableEq, Repr

/-- The database state: users, pending_requests, and the append-only
scan_events audit table (card id and result). -/
structure Db where
  users : List UserRec
  pending : List PendingRec
  scanEvents : List (String × String)
deriving DecidableEq, Repr

/-- db.get_user: SELECT * FROM users WHERE card_id = ? and return the
row if any. The query filters on card_id only; the status column is not
consulted. -/
def getUser (db : Db) (cid : String) : Option UserRec :=
  db.users.find? (fun u => u.cardId = cid)

/-- db.get_pending_request: SELECT * FROM pending_requests WHERE
card_id = ?. -/
def getPendingRequest (db : Db) (cid : String) : Option PendingRec :=
  db.pending.find? (fun p => p.cardId = cid)

/-- db.log_scan_event: INSERT INTO scan_events (card_id, result). -/
def logScanEvent (db : Db) (cid result : String) : Db :=
  { db with scanEvents := db.scanEvents ++ [(cid, result)] }

/-- The access decision outcomes of handle_card_read. -/
inductive Outcome where
  | authorized (name : String)
  | authorizationPending (name : String)
  | unknown
deriving DecidableEq, Repr

/-- handle_card_read of app.py: log a scan event unconditionally, then
look the card up in the users table (authorized: unlock, update last
access, audit unlock), else in pending_requests (audit pending), else
audit unknown. -/
def handleCardRead (db : Db) (cid : String) : Db × Outcome :=
  let db1 := logScanEvent db cid "scan"
  match getUser db1 cid with
  | some u => (logScanEvent db1 cid "unlock", .authorized u.name)
  | none =>
    match getPendingRequest db1 cid with
    | some p =>
      (logScanEvent db1 cid "pending", .authorizationPending (p.firstName ++ " " ++ p.lastName))
    | none => (logScanEvent db1 cid "unknown", .unknown)

end AccessCtl

section Helpers

open CardReader

/-- Bit concatenation as arithmetic: oring a low block below a shifted
value adds it. -/
theorem lor_two_pow_mul_add (n : Nat) : ∀ a b : Nat, b < 2 ^ n → a * 2 ^ n ||| b = a * 2 ^ n + b := by
  induction n with
  | zero =>
    intro a b h
    simp [Nat.lt_one_iff] at h
    simp [h]
  | succ n ih =>
    intro a b h
    have hd : b.div2 < 2 ^ n := by
      have h2 : b < 2 ^ n * 2 := by rw [pow_succ] at h; exact h
      rw [Nat.div2_val]
      omega
    have h1 : a * 2 ^ (n + 1) = Nat.bit false (a * 2 ^ n) := by
      rw [Nat.bit_val, pow_succ]
      simp
      ring
    calc a * 2 ^ (n + 1) ||| b
        = Nat.bit false (a * 2 ^ n) ||| Nat.bit b.bodd b.div2 := by
          rw [h1, Nat.bit_decomp b]
      _ = Nat.bit (false || b.bodd) (a * 2 ^ n ||| b.div2) := Nat.lor_bit _ _ _ _
      _ = Nat.bit b.bodd (a * 2 ^ n + b.div2) := by rw [ih a b.div2 hd]; simp
      _ = a * 2 ^ (n + 1) + b := by
          rw [Nat.bit_val, pow_succ]
          have h2 := Nat.bodd_add_div2 b
          have h3 : a * (2 ^ n * 2) = 2 * (a * 2 ^ n) := by ring
          rw [h3]
          omega

/-- The fold step of bufVal agrees with base-256 arithmetic on octets. -/
theorem shiftLeft8_lor (a b : Nat) (h : b < 256) : (a <<< 8) ||| b = 256 * a + b := by
  have h2 : b < 2 ^ 8 := by norm_num; exact h
  have h3 := lor_two_pow_mul_add 8 a b h2
  rw [Nat.shiftLeft_eq]
  rw [h3]
  norm_num
  ring

theorem foldl_lor_eq_foldl_mul (bs : List Nat) : ∀ a : Nat, (∀ b ∈ bs, b < 256) →
    bs.foldl (fun acc b => (acc <<< 8) ||| b) a = bs.foldl (fun acc b => 256 * acc + b) a := by
  induction bs with
  | nil => intro a _; rfl
  | cons x xs ih =>
    intro a h
    simp only [List.foldl_cons]
    rw [shiftLeft8_lor a x (h x (List.mem_cons_self x xs))]
    exact ih _ (fun b hb => h b (List.mem_cons_of_mem x hb))

/-- On octet lists the accumulated value computed by the code is the
big-endian base-256 value of the specification. -/
theorem bufVal_eq_specVal (bs : List Nat) (h : ∀ b ∈ bs, b < 256) : bufVal bs = specVal bs :=
  foldl_lor_eq_foldl_mul bs 0 h

theorem specVal_concat (ys : List Nat) (b : Nat) : specVal (ys ++ [b]) = 256 * specVal ys + b := by
  simp [specVal, List.foldl_append]

theorem specVal_pos (bs : List Nat) (hne : bs ≠ []) (hz : ∀ b ∈ bs, b ≠ 0) : 0 < specVal bs := by
  rcases (List.eq_nil_or_concat bs).resolve_left hne with ⟨ys, b, rfl⟩
  rw [List.concat_eq_append, specVal_concat]
  have hb : b ≠ 0 := hz b (by simp)
  omega

theorem nzBytes_mem_ne_zero {raw : List Nat} {b : Nat} (h : b ∈ nzBytes raw) : b ≠ 0 := by
  simp only [nzBytes, List.mem_filter, bne_iff_ne, ne_eq] at h
  exact h.2

theorem groupBytes_cons (p : Nat × List Nat) (g : List (Nat × List Nat)) :
    groupBytes (p :: g) = nzBytes p.2 ++ groupBytes g := by
  simp [groupBytes]

theorem groupBytes_mem_ne_zero {g : List (Nat × List Nat)} {b : Nat} (h : b ∈ groupBytes g) :
    b ≠ 0 := by
  simp only [groupBytes, List.mem_flatten, List.mem_map] at h
  rcases h with ⟨l, ⟨p, _, rfl⟩, hbl⟩
  exact nzBytes_mem_ne_zero hbl

end Helpers

/-- Claim C1 (code bug): handle_card_read authorizes any card with a row
in the users table, whatever its status column holds, because get_user
selects on card_id alone. A user whose status was set to a non-active
value is therefore still Authorized, contradicting the claim that only
the active-user set authorizes; a genuinely removed user is Unknown as
claimed, and the historical ScanEvents are untouched either way. -/
theorem C1_deactivated_user_still_authorized :
    (AccessCtl.handleCardRead
        ⟨[⟨"1001", "Bob Johnson", "inactive"⟩], [], [("1001", "scan"), ("1001", "unlock")]⟩
        "1001").2 = .authorized "Bob Johnson" ∧
    (AccessCtl.handleCardRead
        ⟨[], [], [("1001", "scan"), ("1001", "unlock")]⟩ "1001").2 = .unknown ∧
    (AccessCtl.handleCardRead
        ⟨[⟨"1001", "Bob Johnson", "inactive"⟩], [], [("1001", "scan"), ("1001", "unlock")]⟩
        "1001").1.scanEvents =
      [("1001", "scan"), ("1001", "unlock"), ("1001", "scan"), ("1001", "unlock")] := by
  decide

/-- Claim C5: while the shear is unlocked, a rising edge on the
configured motion input channel restarts the expiry timer so that the
remaining time at that instant is the full configured timeout, and
increments the cycle counter by exactly one; a falling edge leaves the
whole controller state unchanged. -/
theorem C5_motion_edge_extends_timer (s : Shear.ShearCtl) (ch : String) (now : Nat)
    (hu : s.shearUnlocked = true) (hch : ch = s.motionInputPin) :
    (Shear.handleInputChange s ch true now).shearCycles = s.shearCycles + 1 ∧
    Shear.remainingTime (Shear.handleInputChange s ch true now) now = s.unlockTimeout ∧
    Shear.handleInputChange s ch false now = s := by
  subst hch
  simp [Shear.handleInputChange, Shear.startShearTimeoutTimer, Shear.remainingTime, hu]

/-- Witness for C5 at a concrete unlocked controller state. -/
theorem C5_motion_edge_extends_timer_witness :
    (Shear.handleInputChange ⟨true, 3, some 5, true, 120, "FIO4"⟩ "FIO4" true 42).shearCycles
        = 3 + 1 ∧
    Shear.remainingTime
        (Shear.handleInputChange ⟨true, 3, some 5, true, 120, "FIO4"⟩ "FIO4" true 42) 42 = 120 ∧
    Shear.handleInputChange ⟨true, 3, some 5, true, 120, "FIO4"⟩ "FIO4" false 42 =
      ⟨true, 3, some 5, true, 120, "FIO4"⟩ :=
  C5_motion_edge_extends_timer ⟨true, 3, some 5, true, 120, "FIO4"⟩ "FIO4" 42 rfl rfl

/-- Claim C7 (counterexample): a request carrying a valid new timeout of
60 s together with an invalid output pin is rejected with the
output-pin error, yet the timeout has already been applied, so the
previously stored settings did not all remain unchanged. -/
theorem C7_counterexample :
    Settings.apiSaveSettings Settings.defaultSettings ⟨some 60, some "EIO0", none, none⟩ =
      (⟨60, "FIO6", "FIO4", "unlock"⟩, some "Invalid output pin") ∧
    (⟨60, "FIO6", "FIO4", "unlock"⟩ : Settings.ShearSettings) ≠ Settings.defaultSettings := by
  decide

/-- Claim C7 (amended): each invalid field is rejected with its own
specific error message and is never applied or clamped; the invalid
field and every field later in the fixed processing order (timeout,
output pin, motion pin, error action) keep their previous values, but
valid fields processed earlier in the same rejected request have
already been applied. -/
theorem C7_invalid_field_rejected_with_specific_error
    (s s' : Settings.ShearSettings) (d : Settings.SettingsRequest) (msg : String)
    (h : Settings.apiSaveSettings s d = (s', some msg)) :
    (msg = "Timeout must be between 10 and 3600 seconds" → s' = s) ∧
    (msg = "Invalid output pin" → s'.shearOutputPin = s.shearOutputPin ∧
      s'.motionInputPin = s.motionInputPin ∧ s'.errorAction = s.errorAction) ∧
    (msg = "Invalid input pin" → s'.motionInputPin = s.motionInputPin ∧
      s'.errorAction = s.errorAction) ∧
    (msg = "Invalid error action" → s'.errorAction = s.errorAction) := by
  unfold Settings.apiSaveSettings Settings.saveOutputPin Settings.saveMotionPin
    Settings.saveErrorAction at h
  repeat' split at h
  all_goals
    first
    | (cases h; simp_all)
    | simp_all

/-- Witness for the amended C7: a valid timeout of 60 followed by the
invalid motion pin FIO9 is rejected with the input-pin error, and the
fields at and after the failing one keep their previous values. -/
theorem C7_invalid_field_rejected_with_specific_error_witness :
    Settings.apiSaveSettings Settings.defaultSettings ⟨some 60, none, some "FIO9", none⟩ =
      (⟨60, "FIO6", "FIO4", "unlock"⟩, some "Invalid input pin") ∧
    (⟨60, "FIO6", "FIO4", "unlock"⟩ : Settings.ShearSettings).motionInputPin =
      Settings.defaultSettings.motionInputPin ∧
    (⟨60, "FIO6", "FIO4", "unlock"⟩ : Settings.ShearSettings).errorAction =
      Settings.defaultSettings.errorAction := by
  have h := (C7_invalid_field_rejected_with_specific_error Settings.defaultSettings
    ⟨60, "FIO6", "FIO4", "unlock"⟩ ⟨some 60, none, some "FIO9", none⟩
    "Invalid input pin" (by decide)).2.2.1 rfl
  exact ⟨by decide, h.1, h.2⟩

/-- Claim C9: set_digital_output refuses any channel outside the two
configured output channels FIO6 and FIO7, returning False and leaving
the LabJack state (device write log, output_states, everything)
untouched; consequently trigger_shear_unlock, force_shear_lock and
set_status_led, which all target EIO pins, always return False and never
drive a physical output. -/
theorem C9_invalid_channel_never_drives_output (lj : LabJack.LJ) (ch : String) (st : Bool)
    (hch : ch ∉ LabJack.outputChannels) :
    LabJack.setDigitalOutput lj ch st = (lj, false) ∧
    LabJack.triggerShearUnlock lj = (lj, false) ∧
    LabJack.forceShearLock lj = (lj, false) ∧
    ∀ c s, LabJack.setStatusLed lj c s = (lj, false) := by
  have base : ∀ (c : String) (b : Bool), c ∉ LabJack.outputChannels →
      LabJack.setDigitalOutput lj c b = (lj, false) := by
    intro c b hc
    unfold LabJack.setDigitalOutput
    simp [hc]
  refine ⟨base ch st hch, ?_, ?_, ?_⟩
  · unfold LabJack.triggerShearUnlock
    rw [base "EIO0" true (by decide)]
    rfl
  · unfold LabJack.forceShearLock
    rw [base "EIO0" false (by decide)]
    rfl
  · intro c s
    unfold LabJack.setStatusLed
    split
    · rw [base "EIO1" s (by decide)]
    · split
      · rw [base "EIO2" s (by decide)]
      · split
        · rw [base "EIO3" s (by decide)]
        · rfl

/-- Witness for C9 on a connected LabJack and the EIO0 channel. -/
theorem C9_invalid_channel_never_drives_output_witness :
    ("EIO0" ∉ LabJack.outputChannels) ∧
    LabJack.setDigitalOutput ⟨true, [("FIO6", false)], [], false⟩ "EIO0" true =
      (⟨true, [("FIO6", false)], [], false⟩, false) ∧
    LabJack.triggerShearUnlock ⟨true, [("FIO6", false)], [], false⟩ =
      (⟨true, [("FIO6", false)], [], false⟩, false) :=
  ⟨by decide,
   (C9_invalid_channel_never_drives_output ⟨true, [("FIO6", false)], [], false⟩ "EIO0" true
      (by decide)).1,
   (C9_invalid_channel_never_drives_output ⟨true, [("FIO6", false)], [], false⟩ "EIO0" true
      (by decide)).2.1⟩

/-- Claim C8 (counterexample): with FIO6 in auto mode on a connected
device, the set_digital_output control action still drives the physical
output: the device write (pin 6, HIGH) is issued, the recorded output
state changes and the call reports success. -/
theorem C8_counterexample :
    getAssoc
      (LabJack.AppCtl.outputModes
        ⟨[("FIO6", "auto"), ("FIO7", "auto")], [("FIO6", false), ("FIO7", false)],
          ⟨true, [("FIO6", false), ("FIO7", false)], [], false⟩⟩) "FIO6" "auto" = "auto" ∧
    LabJack.apiSetDigitalOutput
        ⟨[("FIO6", "auto"), ("FIO7", "auto")], [("FIO6", false), ("FIO7", false)],
          ⟨true, [("FIO6", false), ("FIO7", false)], [], false⟩⟩ "FIO6" true =
      (⟨[("FIO6", "auto"), ("FIO7", "auto")], [("FIO6", false), ("FIO7", false)],
          ⟨true, [("FIO6", true), ("FIO7", false)], [(6, true)], false⟩⟩, true) := by
  decide

/-- Claim C8 (amended): the set_digital_output control action is honored
in both modes; on a connected device with FIO6 in auto mode it drives
the physical output (appending the device write for pin 6 and updating
the recorded output state), reports success, and leaves the recorded
manual states untouched. -/
theorem C8_auto_mode_still_drives_output (a : LabJack.AppCtl) (st : Bool)
    (hc : a.lj.connected = true)
    (hm : getAssoc a.outputModes "FIO6" "auto" = "auto") :
    LabJack.apiSetDigitalOutput a "FIO6" st =
      ({ a with lj := { a.lj with
          deviceWrites := a.lj.deviceWrites ++ [(6, st)],
          outputStates := setAssoc a.lj.outputStates "FIO6" st } }, true) ∧
    (LabJack.apiSetDigitalOutput a "FIO6" st).1.manualOutputStates = a.manualOutputStates := by
  have hpin : LabJack.pinNum "FIO6" = some 6 := by decide
  have hmem : "FIO6" ∈ LabJack.outputChannels := by decide
  have h1 : LabJack.apiSetDigitalOutput a "FIO6" st =
      ({ a with lj := { a.lj with
          deviceWrites := a.lj.deviceWrites ++ [(6, st)],
          outputStates := setAssoc a.lj.outputStates "FIO6" st } }, true) := by
    unfold LabJack.apiSetDigitalOutput
    rw [hm]
    unfold LabJack.setDigitalOutput
    rw [hpin]
    simp [hc, hmem]
  exact ⟨h1, by rw [h1]⟩

/-- Witness for the amended C8 at a concrete auto-mode state. -/
theorem C8_auto_mode_still_drives_output_witness :
    LabJack.apiSetDigitalOutput
        ⟨[("FIO6", "auto")], [("FIO6", false)], ⟨true, [("FIO6", false)], [], false⟩⟩
        "FIO6" true =
      (⟨[("FIO6", "auto")], [("FIO6", false)], ⟨true, [("FIO6", true)], [(6, true)], false⟩⟩,
        true) := by
  have h := (C8_auto_mode_still_drives_output
    ⟨[("FIO6", "auto")], [("FIO6", false)], ⟨true, [("FIO6", false)], [], false⟩⟩
    true rfl (by decide)).1
  exact h

/-- Claim C6 (counterexample): with a connected device where sampling
FIO4 raises and FIO5 reads a stable HIGH, read_digital_inputs returns no
readings at all (the try block wraps the whole channel loop, so the
exception aborts it and the handler returns an empty dict), and the
monitor step produces no stable reading and no change event for FIO5
even though FIO5 did not error. -/
theorem C6_counterexample :
    LabJack.readDigitalInputs ⟨true, [], [], false⟩
      (fun c => if c = "FIO4" then none else some (true, true, true)) = [] ∧
    LabJack.monitorStepDigital [] ⟨true, [], [], false⟩
      (fun c => if c = "FIO4" then none else some (true, true, true)) = ([], []) := by
  decide

/-- Claim C6 (amended): a read error on either monitored channel aborts
the entire poll: read_digital_inputs returns an empty reading map, so
that poll produces no stable readings and no change events for any
channel, erroring or not, and the stored per-channel states are left
unchanged; the monitor loop itself survives and polls again. -/
theorem C6_channel_error_aborts_whole_poll (lj : LabJack.LJ)
    (dev : String → Option (Bool × Bool × Bool))
    (hc : lj.connected = true)
    (herr : dev "FIO4" = none ∨ dev "FIO5" = none) :
    LabJack.readDigitalInputs lj dev = [] ∧
    ∀ last, LabJack.monitorStepDigital last lj dev = (last, []) := by
  have haux : LabJack.readChannelsAux LabJack.inputChannels dev = none := by
    show LabJack.readChannelsAux ["FIO4", "FIO5"] dev = none
    rcases herr with h4 | h5
    · unfold LabJack.readChannelsAux
      rw [h4]
      rfl
    · cases h4 : dev "FIO4" with
      | none =>
        unfold LabJack.readChannelsAux
        rw [h4]
        rfl
      | some r =>
        unfold LabJack.readChannelsAux
        rw [h4]
        unfold LabJack.readChannelsAux
        rw [h5]
        rfl
  have hread : LabJack.readDigitalInputs lj dev = [] := by
    unfold LabJack.readDigitalInputs
    rw [haux]
    simp [hc]
  refine ⟨hread, fun last => ?_⟩
  unfold LabJack.monitorStepDigital
  rw [hread]
  rfl

/-- Witness for the amended C6: the concrete device of the
counterexample satisfies the error hypothesis. -/
theorem C6_channel_error_aborts_whole_poll_witness :
    LabJack.readDigitalInputs ⟨true, [("FIO5", true)], [], false⟩
      (fun c => if c = "FIO4" then none else some (true, true, true)) = [] ∧
    LabJack.monitorStepDigital [("FIO5", true)] ⟨true, [("FIO5", true)], [], false⟩
      (fun c => if c = "FIO4" then none else some (true, true, true)) =
      ([("FIO5", true)], []) :=
  ⟨(C6_channel_error_aborts_whole_poll ⟨true, [("FIO5", true)], [], false⟩
      (fun c => if c = "FIO4" then none else some (true, true, true)) rfl
      (Or.inl (by decide))).1,
   (C6_channel_error_aborts_whole_poll ⟨true, [("FIO5", true)], [], false⟩
      (fun c => if c = "FIO4" then none else some (true, true, true)) rfl
      (Or.inl (by decide))).2 [("FIO5", true)]⟩

section FrameAssembler

open CardReader

/-- process_card_buffer leaves the state untouched and returns nothing
when the buffer value duplicates the last processed card inside the
duplicate window. -/
theorem processCardBuffer_dup (s : RState) (t pid pt : Nat)
    (hlp : s.lastProcessed = some (pid, pt))
    (hid : pid = bufVal s.cardBuffer)
    (hw : t - pt < duplicateTimeout) :
    processCardBuffer s t = (s, none) := by
  unfold processCardBuffer
  rw [hlp]
  by_cases hb : s.cardBuffer = []
  · simp [hb]
  · by_cases hz : bufVal s.cardBuffer = 0
    · simp [hb, hz]
    · simp [hb, hz, hid, hw]

/-- process_card_buffer leaves the state untouched and returns nothing
when the buffer value is zero. -/
theorem processCardBuffer_zero (s : RState) (t : Nat) (hz : bufVal s.cardBuffer = 0) :
    processCardBuffer s t = (s, none) := by
  unfold processCardBuffer
  by_cases hb : s.cardBuffer = [] <;> simp [hb, hz]

/-- When processing the freshly assembled buffer yields nothing,
parse_card_data returns no event and keeps the assembled buffer in
place: only last_read_time advances. -/
theorem parseCardData_of_process_none (s : RState) (t : Nat) (raw : List Nat)
    (hnb : nzBytes raw ≠ [])
    (h4 : 4 ≤ (assembleBuf s t raw).length)
    (hp : processCardBuffer ⟨assembleBuf s t raw, t, s.lastProcessed⟩ t =
      (⟨assembleBuf s t raw, t, s.lastProcessed⟩, none)) :
    parseCardData s t raw = (⟨assembleBuf s t raw, t, s.lastProcessed⟩, none) := by
  unfold parseCardData
  have hs1 : ({ s with cardBuffer := assembleBuf s t raw, lastReadTime := t } : RState) =
      ⟨assembleBuf s t raw, t, s.lastProcessed⟩ := rfl
  simp only [hnb, if_false, h4, if_true, hs1, hp]

/-- Any card id emitted by process_card_buffer is the accumulated value
of the buffer. -/
theorem processCardBuffer_emit_val (s : RState) (t v : Nat)
    (h : (processCardBuffer s t).2 = some v) :
    v = bufVal s.cardBuffer := by
  unfold processCardBuffer at h
  by_cases hb : s.cardBuffer = []
  · simp [hb] at h
  · by_cases hz : bufVal s.cardBuffer = 0
    · simp [hb, hz] at h
    · rcases hlp : s.lastProcessed with _ | ⟨pid, pt⟩
      · rw [hlp] at h
        simp [hb, hz] at h
        exact h.symm
      · rw [hlp] at h
        by_cases hdup : pid = bufVal s.cardBuffer ∧ t - pt < duplicateTimeout
        · simp [hb, hz, hdup] at h
        · simp [hb, hz, hdup] at h
          exact h.symm

/-- Any card id emitted by parse_card_data is the accumulated value of
the buffer it assembled. -/
theorem parseCardData_emit_val (s : RState) (t : Nat) (raw : List Nat) (v : Nat)
    (h : (parseCardData s t raw).2 = some v) :
    v = bufVal (assembleBuf s t raw) := by
  simp only [parseCardData] at h
  by_cases hnb : nzBytes raw = []
  · simp [hnb] at h
  · by_cases h4 : 4 ≤ (assembleBuf s t raw).length
    · simp only [hnb, if_false, h4, if_true] at h
      rcases hpr : (processCardBuffer
          { s with cardBuffer := assembleBuf s t raw, lastReadTime := t } t).2 with _ | r
      · rw [hpr] at h
        simp at h
      · rw [hpr] at h
        simp at h
        rw [← h]
        exact processCardBuffer_emit_val _ t r hpr
    · simp [hnb, h4] at h

/-- Claim C2: when a frame closes to the same card identifier as the
most recently emitted one and less than duplicate_timeout has elapsed
since that emission, parse_card_data emits nothing, and
last_processed_card is left at the original emission, so the
suppression window keeps being measured from the last emission, not
from the suppressed attempt. -/
theorem C2_duplicate_window_suppresses (s : RState) (t : Nat) (raw : List Nat) (pid pt : Nat)
    (hlp : s.lastProcessed = some (pid, pt))
    (hnb : nzBytes raw ≠ [])
    (h4 : 4 ≤ (assembleBuf s t raw).length)
    (hid : pid = bufVal (assembleBuf s t raw))
    (hw : t - pt < duplicateTimeout) :
    parseCardData s t raw = (⟨assembleBuf s t raw, t, some (pid, pt)⟩, none) := by
  have hp : processCardBuffer ⟨assembleBuf s t raw, t, s.lastProcessed⟩ t =
      (⟨assembleBuf s t raw, t, s.lastProcessed⟩, none) :=
    processCardBuffer_dup _ t pid pt hlp hid hw
  have := parseCardData_of_process_none s t raw hnb h4 hp
  rw [hlp] at this
  exact this

/-- Witness for C2: a second reading of card 16909060 one second after
its emission is suppressed and the anchor timestamp stays at the
original emission. -/
theorem C2_duplicate_window_suppresses_witness :
    parseCardData ⟨[], 0, some (16909060, 0)⟩ 1000 [1, 2, 3, 4] =
      (⟨[1, 2, 3, 4], 1000, some (16909060, 0)⟩, none) :=
  C2_duplicate_window_suppresses ⟨[], 0, some (16909060, 0)⟩ 1000 [1, 2, 3, 4] 16909060 0
    rfl (by decide) (by decide) (by decide) (by decide)

/-- Claim C3 (counterexample): a 3-byte partial scan at t = 0 followed
by a report at t = 1000 ms produces no emission at all: the pending
buffer is discarded, not closed into the CardIdentifier 66051 and
emitted as its own scan event as the claim requires; the new frame
starts from the fresh report alone. -/
theorem C3_counterexample :
    (runReports initialState [(0, [1, 2, 3]), (1000, [5])]).2 = [] ∧
    (runReports initialState [(0, [1, 2, 3]), (1000, [5])]).1.cardBuffer = [5] := by
  decide

/-- Claim C3 (amended): when a report with non-zero bytes arrives more
than card_timeout after the previous contribution while bytes are
pending, the pending buffer is discarded first, not emitted: the call
behaves exactly as if the buffer had been empty, so one scan's tail
bytes are never appended to the next scan's frame. -/
theorem C3_stale_buffer_discarded (s : RState) (t : Nat) (raw : List Nat)
    (hgap : cardTimeout < t - s.lastReadTime)
    (hbuf : s.cardBuffer ≠ [])
    (hnb : nzBytes raw ≠ []) :
    parseCardData s t raw = parseCardData ⟨[], s.lastReadTime, s.lastProcessed⟩ t raw := by
  unfold parseCardData assembleBuf
  simp [hgap, hbuf, hnb]

/-- Witness for the amended C3: a pending 1-byte buffer from t = 0 is
discarded by a report at t = 1000 ms. -/
theorem C3_stale_buffer_discarded_witness :
    parseCardData ⟨[9], 0, none⟩ 1000 [1] = parseCardData ⟨[], 0, none⟩ 1000 [1] :=
  C3_stale_buffer_discarded ⟨[9], 0, none⟩ 1000 [1] (by decide) (by decide) (by decide)

/-- Claim C10: when a closed frame of at least 4 accumulated bytes is
suppressed (zero value, or a duplicate of the last emission inside the
2-second window), parse_card_data returns no event but does not clear
the accumulated buffer, and any card id emitted by a following report
within card_timeout is the value of the suppressed bytes with the new
bytes appended, not of a fresh frame. -/
theorem C10_suppressed_frame_keeps_buffer (s : RState) (t : Nat) (raw : List Nat)
    (hnb : nzBytes raw ≠ [])
    (h4 : 4 ≤ (assembleBuf s t raw).length)
    (hsupp : bufVal (assembleBuf s t raw) = 0 ∨
      ∃ pid pt, s.lastProcessed = some (pid, pt) ∧ pid = bufVal (assembleBuf s t raw) ∧
        t - pt < duplicateTimeout) :
    parseCardData s t raw = (⟨assembleBuf s t raw, t, s.lastProcessed⟩, none) ∧
    ∀ t2 raw2 v, nzBytes raw2 ≠ [] → t2 - t ≤ cardTimeout →
      (parseCardData ⟨assembleBuf s t raw, t, s.lastProcessed⟩ t2 raw2).2 = some v →
      v = bufVal (assembleBuf s t raw ++ nzBytes raw2) := by
  have hp : processCardBuffer ⟨assembleBuf s t raw, t, s.lastProcessed⟩ t =
      (⟨assembleBuf s t raw, t, s.lastProcessed⟩, none) := by
    rcases hsupp with hz | ⟨pid, pt, hlp, hid, hw⟩
    · exact processCardBuffer_zero _ t hz
    · exact processCardBuffer_dup _ t pid pt hlp hid hw
  refine ⟨parseCardData_of_process_none s t raw hnb h4 hp, ?_⟩
  intro t2 raw2 v hnb2 hgap2 hemit
  generalize hbuf : assembleBuf s t raw = buf at hemit ⊢
  have hv := parseCardData_emit_val _ t2 raw2 v hemit
  rw [hv]
  have hno : ¬ (cardTimeout < t2 - t) := by omega
  simp [assembleBuf, hno]

/-- Witness for C10: the suppressed duplicate [1,2,3,4] keeps its bytes,
and a following byte 7 at t = 1200 ms closes the frame [1,2,3,4,7]. -/
theorem C10_suppressed_frame_keeps_buffer_witness :
    parseCardData ⟨[], 0, some (16909060, 0)⟩ 1000 [1, 2, 3, 4] =
      (⟨[1, 2, 3, 4], 1000, some (16909060, 0)⟩, none) ∧
    (parseCardData ⟨[1, 2, 3, 4], 1000, some (16909060, 0)⟩ 1200 [7]).2 =
      some (bufVal [1, 2, 3, 4, 7]) ∧
    bufVal [1, 2, 3, 4, 7] = 4328719367 := by
  have h := C10_suppressed_frame_keeps_buffer ⟨[], 0, some (16909060, 0)⟩ 1000 [1, 2, 3, 4]
    (by decide) (by decide)
    (Or.inr ⟨16909060, 0, rfl, by decide, by decide⟩)
  refine ⟨h.1, ?_, by decide⟩
  have h2 := h.2 1200 [7] (bufVal [1, 2, 3, 4, 7])
  have hemit : (parseCardData ⟨[1, 2, 3, 4], 1000, some (16909060, 0)⟩ 1200 [7]).2 =
      some 4328719367 := by decide
  rw [hemit]
  have : bufVal [1, 2, 3, 4, 7] = 4328719367 := by decide
  rw [this]

end FrameAssembler

section FrameGroups

open CardReader

/-- When the pending buffer is empty or the report falls inside the
card_timeout window, assembly just appends the new non-zero bytes. -/
theorem assembleBuf_no_flush (s : RState) (t : Nat) (raw : List Nat)
    (h : s.cardBuffer = [] ∨ t - s.lastReadTime ≤ cardTimeout) :
    assembleBuf s t raw = s.cardBuffer ++ nzBytes raw := by
  unfold assembleBuf
  rcases h with h | h
  · simp [h]
  · have : ¬ (cardTimeout < t - s.lastReadTime ∧ s.cardBuffer ≠ []) := by
      intro hc
      omega
    rw [if_neg this]

/-- Below the 4-byte threshold parse_card_data only accumulates. -/
theorem parseCardData_accumulates (s : RState) (t : Nat) (raw : List Nat)
    (hnb : nzBytes raw ≠ [])
    (hlt : (assembleBuf s t raw).length < 4) :
    parseCardData s t raw = (⟨assembleBuf s t raw, t, s.lastProcessed⟩, none) := by
  unfold parseCardData
  have h4 : ¬ (4 ≤ (assembleBuf s t raw).length) := by omega
  simp [hnb, h4]

/-- At or above the threshold, with a non-zero value and no duplicate
suppression, parse_card_data emits the accumulated value, clears the
buffer and records the emission. -/
theorem parseCardData_emits (s : RState) (t : Nat) (raw : List Nat)
    (hnb : nzBytes raw ≠ [])
    (h4 : 4 ≤ (assembleBuf s t raw).length)
    (hnz : bufVal (assembleBuf s t raw) ≠ 0)
    (hdup : ∀ pid pt, s.lastProcessed = some (pid, pt) →
      pid ≠ bufVal (assembleBuf s t raw) ∨ duplicateTimeout ≤ t - pt) :
    parseCardData s t raw =
      (⟨[], t, some (bufVal (assembleBuf s t raw), t)⟩,
        some (bufVal (assembleBuf s t raw))) := by
  have hbe : assembleBuf s t raw ≠ [] := by
    intro hc
    rw [hc] at h4
    simp at h4
  have hp : processCardBuffer ⟨assembleBuf s t raw, t, s.lastProcessed⟩ t =
      (⟨assembleBuf s t raw, t, some (bufVal (assembleBuf s t raw), t)⟩,
        some (bufVal (assembleBuf s t raw))) := by
    unfold processCardBuffer
    rcases hlp : s.lastProcessed with _ | ⟨pid, pt⟩
    · simp [hbe, hnz]
    · have hnd : ¬ (pid = bufVal (assembleBuf s t raw) ∧ t - pt < duplicateTimeout) := by
        rcases hdup pid pt hlp with h | h
        · intro hc
          exact h hc.1
        · intro hc
          omega
      simp [hbe, hnz, hnd]
  unfold parseCardData
  simp only [hnb, if_false, h4, if_true, hp]

/-- Running a concatenation of report sequences runs them in order,
threading the state and concatenating the emissions. -/
theorem runReports_append (xs ys : List (Nat × List Nat)) :
    ∀ s : RState, runReports s (xs ++ ys) =
      ((runReports (runReports s xs).1 ys).1,
        (runReports s xs).2 ++ (runReports (runReports s xs).1 ys).2) := by
  induction xs with
  | nil => intro s; simp [runReports]
  | cons x xs ih =>
    intro s
    simp [runReports, ih, List.append_assoc]

theorem groupBytes_mem_lt {g : List (Nat × List Nat)}
    (hb : ∀ p ∈ g, ∀ b ∈ p.2, b < 256) : ∀ b ∈ groupBytes g, b < 256 := by
  intro b hmem
  simp only [groupBytes, List.mem_flatten, List.mem_map] at hmem
  rcases hmem with ⟨l, ⟨p, hp, rfl⟩, hbl⟩
  have hb2 : b ∈ p.2 := by
    simp only [nzBytes, List.mem_filter] at hbl
    exact hbl.1
  exact hb p hp b hb2

theorem lastTime_singleton (p : Nat × List Nat) : lastTime [p] = p.1 := by
  simp [lastTime]

theorem lastTime_cons_cons (p q : Nat × List Nat) (l : List (Nat × List Nat)) :
    lastTime (p :: q :: l) = lastTime (q :: l) := by
  simp [lastTime, List.getLast?_cons_cons]

end FrameGroups

section FrameGroupRun

open CardReader

/-- Running one well-formed group of reports from a state whose pending
buffer holds acc accumulated non-zero bytes emits exactly one card id,
the accumulated value of acc followed by the group's non-zero bytes, at
the group's last report, and leaves the buffer empty with the emission
recorded. -/
theorem runReports_group (g : List (Nat × List Nat)) :
    ∀ (acc : List Nat) (lrt : Nat) (lp : Option (Nat × Nat)),
    (∀ p ∈ g, nzBytes p.2 ≠ []) →
    (acc ≠ [] → firstTime g - lrt ≤ cardTimeout) →
    List.Chain' (fun p q => q.1 - p.1 ≤ cardTimeout) g →
    (∀ k, k + 1 < g.length → (acc ++ groupBytes (g.take (k + 1))).length < 4) →
    4 ≤ (acc ++ groupBytes g).length →
    bufVal (acc ++ groupBytes g) ≠ 0 →
    (∀ pid pt, lp = some (pid, pt) →
        pid ≠ bufVal (acc ++ groupBytes g) ∨ duplicateTimeout ≤ lastTime g - pt) →
    g ≠ [] →
    runReports ⟨acc, lrt, lp⟩ g =
      (⟨[], lastTime g, some (bufVal (acc ++ groupBytes g), lastTime g)⟩,
        [bufVal (acc ++ groupBytes g)]) := by
  induction g with
  | nil =>
    intro acc lrt lp _ _ _ _ _ _ _ hne
    exact absurd rfl hne
  | cons p rest ih =>
    intro acc lrt lp hnz hgap0 hchain hpre htot hpos hdup _
    have hnbp : nzBytes p.2 ≠ [] := hnz p (List.mem_cons_self p rest)
    have hab : assembleBuf ⟨acc, lrt, lp⟩ p.1 p.2 = acc ++ nzBytes p.2 := by
      apply assembleBuf_no_flush
      by_cases hacc : acc = []
      · exact Or.inl hacc
      · right
        have := hgap0 hacc
        simpa [firstTime] using this
    cases rest with
    | nil =>
      have hgb : groupBytes [p] = nzBytes p.2 := by simp [groupBytes]
      rw [hgb] at htot hpos
      have h4 : 4 ≤ (assembleBuf ⟨acc, lrt, lp⟩ p.1 p.2).length := by
        rw [hab]
        exact htot
      have hnz0 : bufVal (assembleBuf ⟨acc, lrt, lp⟩ p.1 p.2) ≠ 0 := by
        rw [hab]
        exact hpos
      have hdup2 : ∀ pid pt, (⟨acc, lrt, lp⟩ : RState).lastProcessed = some (pid, pt) →
          pid ≠ bufVal (assembleBuf ⟨acc, lrt, lp⟩ p.1 p.2) ∨
            duplicateTimeout ≤ p.1 - pt := by
        intro pid pt hlp
        have := hdup pid pt hlp
        rw [hgb] at this
        rw [hab]
        simpa [lastTime_singleton] using this
      have hrun := parseCardData_emits ⟨acc, lrt, lp⟩ p.1 p.2 hnbp h4 hnz0 hdup2
      simp [runReports, hrun, hab, hgb, lastTime_singleton]
    | cons q rest2 =>
      have hcc := List.chain'_cons.mp hchain
      have hlt : (assembleBuf ⟨acc, lrt, lp⟩ p.1 p.2).length < 4 := by
        have h1 := hpre 0 (by simp)
        simpa [hab, groupBytes] using h1
      have hstep := parseCardData_accumulates ⟨acc, lrt, lp⟩ p.1 p.2 hnbp hlt
      have ihres := ih (acc ++ nzBytes p.2) p.1 lp
        (fun r hr => hnz r (List.mem_cons_of_mem p hr))
        (by
          intro _
          simpa [firstTime] using hcc.1)
        hcc.2
        (by
          intro k hk
          have h2 := hpre (k + 1) (by simp at hk ⊢; omega)
          simpa [groupBytes_cons, List.append_assoc] using h2)
        (by simpa [groupBytes_cons, List.append_assoc] using htot)
        (by simpa [groupBytes_cons, List.append_assoc] using hpos)
        (by
          intro pid pt hlp
          have h3 := hdup pid pt hlp
          simpa [groupBytes_cons, List.append_assoc, lastTime_cons_cons] using h3)
        (by simp)
      have hstep2 : parseCardData ⟨acc, lrt, lp⟩ p.1 p.2 =
          (⟨acc ++ nzBytes p.2, p.1, lp⟩, none) := by
        rw [hstep, hab]
      have hcons : runReports ⟨acc, lrt, lp⟩ (p :: q :: rest2) =
          ((runReports (parseCardData ⟨acc, lrt, lp⟩ p.1 p.2).1 (q :: rest2)).1,
            (parseCardData ⟨acc, lrt, lp⟩ p.1 p.2).2.toList ++
              (runReports (parseCardData ⟨acc, lrt, lp⟩ p.1 p.2).1 (q :: rest2)).2) := rfl
      rw [hcons, hstep2]
      simp [ihres, lastTime_cons_cons, groupBytes_cons, List.append_assoc]

end FrameGroupRun

section FrameGroupsMain

open CardReader

/-- Running a well-formed sequence of groups from an empty buffer emits
exactly the per-group big-endian values, one per group, in order. -/
theorem runReports_groups (gs : List (List (Nat × List Nat))) :
    ∀ (lrt : Nat) (lp : Option (Nat × Nat)), GroupsOK lp gs →
    (runReports ⟨[], lrt, lp⟩ gs.flatten).2 =
      gs.map (fun g => specVal (groupBytes g)) := by
  induction gs with
  | nil =>
    intro lrt lp _
    simp [runReports]
  | cons g rest ih =>
    intro lrt lp hok
    unfold GroupsOK at hok
    obtain ⟨hgok, hdupm, hgapm, hrest⟩ := hok
    obtain ⟨hgne, hgnz, hbyte, hchain, hpre, htot⟩ := hgok
    have hbnd : ∀ b ∈ groupBytes g, b < 256 := groupBytes_mem_lt hbyte
    have hval : bufVal (groupBytes g) = specVal (groupBytes g) := bufVal_eq_specVal _ hbnd
    have hgbne : groupBytes g ≠ [] := by
      intro hc
      rw [hc] at htot
      simp at htot
    have hposS : 0 < specVal (groupBytes g) :=
      specVal_pos _ hgbne (fun b hb => groupBytes_mem_ne_zero hb)
    have hpos : bufVal ([] ++ groupBytes g) ≠ 0 := by
      simp only [List.nil_append]
      rw [hval]
      omega
    have hdup2 : ∀ pid pt, lp = some (pid, pt) →
        pid ≠ bufVal ([] ++ groupBytes g) ∨ duplicateTimeout ≤ lastTime g - pt := by
      intro pid pt hlp
      subst hlp
      simp only [List.nil_append]
      rw [hval]
      simpa using hdupm
    have hrun := runReports_group g [] lrt lp hgnz (fun h => absurd rfl h)
      (hchain.imp (fun a b hab => hab.2))
      (by
        intro k hk
        simpa using hpre k hk)
      (by simpa using htot)
      hpos hdup2 hgne
    have hih := ih (lastTime g) (some (specVal (groupBytes g), lastTime g)) hrest
    rw [List.flatten_cons, runReports_append g rest.flatten ⟨[], lrt, lp⟩, hrun]
    simp only [List.nil_append] at hrun ⊢
    rw [hval] at hrun ⊢
    simp [hih]

end FrameGroupsMain

/-- Claim C4 (counterexample): a single group (its two reports are
100 ms apart, well inside the 500 ms window) consisting of the reports
[1,2,3,4] and [9,9,9,9] produces two emitted CardIdentifiers, 16909060
and 151587081, not exactly one, and neither emission equals the decimal
value of the whole group's non-zero bytes. -/
theorem C4_counterexample :
    (CardReader.runReports CardReader.initialState
        [(0, [1, 2, 3, 4]), (100, [9, 9, 9, 9])]).2 = [16909060, 151587081] ∧
    ([16909060, 151587081] : List Nat).length ≠ 1 ∧
    (CardReader.runReports CardReader.initialState
        [(0, [1, 2, 3, 4]), (100, [9, 9, 9, 9])]).2 ≠
      [CardReader.specVal (CardReader.groupBytes [(0, [1, 2, 3, 4]), (100, [9, 9, 9, 9])])] := by
  decide

/-- Claim C4 (amended): for reports submitted one at a time and grouped
so that every report carries a non-zero byte, reports within a group are
at most 500 ms apart, consecutive groups are separated by more than
500 ms, each group reaches the 4-byte threshold only at its final report
while totalling at least 4 non-zero bytes, and no group duplicates the
previous emission within the 2-second window, the Frame Assembler emits
exactly one CardIdentifier per group, equal to the big-endian integer
formed by the group's non-zero bytes in order (whose decimal string the
code stores as the identifier). -/
theorem C4_one_identifier_per_group (gs : List (List (Nat × List Nat)))
    (h : CardReader.GroupsOK none gs) :
    (CardReader.runReports CardReader.initialState gs.flatten).2 =
      gs.map (fun g => CardReader.specVal (CardReader.groupBytes g)) :=
  runReports_groups gs 0 none h

/-- Witness for the amended C4: two single-report groups 1000 ms apart
emit exactly their two values. -/
theorem C4_one_identifier_per_group_witness :
    CardReader.GroupsOK none [[(0, [1, 2, 0, 3, 4])], [(1000, [5, 6, 7, 8])]] ∧
    (CardReader.runReports CardReader.initialState
        ([[(0, [1, 2, 0, 3, 4])], [(1000, [5, 6, 7, 8])]] :
          List (List (Nat × List Nat))).flatten).2 = [16909060, 84281096] := by
  have hok : CardReader.GroupsOK none [[(0, [1, 2, 0, 3, 4])], [(1000, [5, 6, 7, 8])]] := by
    refine ⟨⟨by decide, by decide, by decide, List.chain'_singleton _,
        by intro k hk; simp at hk, by decide⟩,
      trivial, by decide,
      ⟨by decide, by decide, by decide, List.chain'_singleton _,
        by intro k hk; simp at hk, by decide⟩,
      by decide, trivial, trivial⟩
  refine ⟨hok, ?_⟩
  rw [C4_one_identifier_per_group _ hok]
  decide
